import Mathlib

/-!
Shallow embedding of the conversational frontend of `agent_database`
(React/TypeScript), covering the conversation session manager (`useChat`),
the persistence store (`StorageService` over localStorage), the notification
bus (`showToast`/`useToasts`), the typing-reveal scheduler (`useTypingEffect`)
and the health endpoint of the request gateway (`ApiService.checkHealth`).

Modelling conventions:
- JS `Date` values are modelled by their millisecond instant (`Nat`);
  `toISOString`/`new Date(iso)` keep millisecond precision, so a serialized
  date is modelled by the instant it determines (`IsoDate`).
- Optional TS fields are `Option` fields; an absent field is `none`.
- JS string truthiness (`a || b`, where both `undefined` and `""` are falsy)
  is modelled by `jsStringOr`.
- Fallible, exception-catching code is modelled by total functions over an
  explicit outcome type; totality of the Lean function is the formal content
  of "never throws".
- The typing scheduler manipulates a JS string one UTF-16 unit at a time; its
  text is modelled as the list of those units (`List Char`).
-/

namespace AgentDb

/-- Message role, from `types/index.ts`: `role: 'user' | 'assistant'`. -/
inductive Role where
  | user
  | assistant
deriving DecidableEq

/-- Attachment, from `types/index.ts`. -/
structure Attachment where
  id : String
  type : String
  name : String
  url : Option String := none
  preview : Option String := none
  size : Option Nat := none
  language : Option String := none
deriving DecidableEq

/-- CodeBlock, from `types/index.ts`. -/
structure CodeBlock where
  id : String
  language : String
  code : String
  filename : Option String := none
deriving DecidableEq

/-- ChatResponse, from `types/index.ts`. The claims treat this payload as
opaque response metadata (the spec calls it an opaque payload); the
floating-point metadata (`search_results` distances, `token_optimization`
ratios) is elided, keeping the fields the session manager can observe. -/
structure ChatResponse where
  response : String
  conversation_id : String
  collections_searched : Option (List String) := none
  model_used : Option String := none
  from_cache : Option Bool := none
deriving DecidableEq

/-- ExtendedMessage, from `useChat.ts`: the base `Message` of
`types/index.ts` extended with `responseData?`, `hasError?` and
`originalUserMessage?`. Messages loaded from storage are cast to this type
by `useChat` (`as ExtendedMessage[]`), so one structure with optional fields
models both the stored and the in-memory shape. -/
structure ExtendedMessage where
  id : String
  role : Role
  content : String
  timestamp : Nat
  attachments : Option (List Attachment) := none
  codeBlocks : Option (List CodeBlock) := none
  isLoading : Option Bool := none
  hasError : Option Bool := none
  originalUserMessage : Option String := none
  responseData : Option ChatResponse := none
deriving DecidableEq

/-- Conversation, from `types/index.ts`. -/
structure Conversation where
  id : String
  title : String
  messages : List ExtendedMessage
  createdAt : Nat
  updatedAt : Nat
deriving DecidableEq

/-- An ISO-8601 date string as produced by `JSON.stringify` on a `Date`.
`Date.prototype.toISOString` keeps millisecond precision, so the string
determines its instant exactly; the string is modelled by that instant. -/
structure IsoDate where
  ms : Nat
deriving DecidableEq

/-- Serialization of a `Date` by `JSON.stringify` (via `toISOString`). -/
def encodeDate (t : Nat) : IsoDate := ⟨t⟩

/-- Reconstruction of a serialized date: `new Date(s).getTime()`. -/
def decodeDate (d : IsoDate) : Nat := d.ms

/-- A message as it sits in the persisted JSON: identical to
`ExtendedMessage` except that the timestamp is a serialized date. All other
fields are copied verbatim by `JSON.stringify` and by the object spread in
`StorageService.getConversations`. -/
structure StoredMessage where
  id : String
  role : Role
  content : String
  timestamp : IsoDate
  attachments : Option (List Attachment) := none
  codeBlocks : Option (List CodeBlock) := none
  isLoading : Option Bool := none
  hasError : Option Bool := none
  originalUserMessage : Option String := none
  responseData : Option ChatResponse := none
deriving DecidableEq

/-- A conversation as it sits in the persisted JSON. -/
structure StoredConversation where
  id : String
  title : String
  messages : List StoredMessage
  createdAt : IsoDate
  updatedAt : IsoDate
deriving DecidableEq

/-- Serialization of one message by `JSON.stringify`. -/
def encodeMessage (m : ExtendedMessage) : StoredMessage :=
  { id := m.id, role := m.role, content := m.content,
    timestamp := encodeDate m.timestamp, attachments := m.attachments,
    codeBlocks := m.codeBlocks, isLoading := m.isLoading,
    hasError := m.hasError, originalUserMessage := m.originalUserMessage,
    responseData := m.responseData }

/-- The message revival in `StorageService.getConversations`:
`{...msg, timestamp: new Date(msg.timestamp)}`. -/
def decodeMessage (m : StoredMessage) : ExtendedMessage :=
  { id := m.id, role := m.role, content := m.content,
    timestamp := decodeDate m.timestamp, attachments := m.attachments,
    codeBlocks := m.codeBlocks, isLoading := m.isLoading,
    hasError := m.hasError, originalUserMessage := m.originalUserMessage,
    responseData := m.responseData }

/-- Serialization of one conversation by `JSON.stringify`. -/
def encodeConversation (c : Conversation) : StoredConversation :=
  { id := c.id, title := c.title, messages := c.messages.map encodeMessage,
    createdAt := encodeDate c.createdAt, updatedAt := encodeDate c.updatedAt }

/-- The conversation revival in `StorageService.getConversations`:
`{...conv, createdAt: new Date(...), updatedAt: new Date(...), messages: ...}`. -/
def decodeConversation (c : StoredConversation) : Conversation :=
  { id := c.id, title := c.title, messages := c.messages.map decodeMessage,
    createdAt := decodeDate c.createdAt, updatedAt := decodeDate c.updatedAt }

/-- The raw contents of the localStorage slot `agent-db-conversations`, as
`StorageService.getConversations` can encounter them:
`absent` models `getItem` returning `null`; `notJson` a value on which
`JSON.parse` throws; `jsonNonArray` a value that parses but is not an array
of conversations, so that `parsed.map` throws; `jsonConvs` a well-formed
persisted conversation array. -/
inductive RawStore where
  | absent
  | notJson (s : String)
  | jsonNonArray
  | jsonConvs (cs : List StoredConversation)
deriving DecidableEq

/-- StorageService.getConversations: returns `[]` when the key is absent,
catches any parse or revival exception and returns `[]` (fail-open), and
otherwise revives the dates of every stored conversation. -/
def getConversations (raw : RawStore) : List Conversation :=
  match raw with
  | .absent => []
  | .notJson _ => []
  | .jsonNonArray => []
  | .jsonConvs cs => cs.map decodeConversation

/-- The upsert inside `StorageService.saveConversation`: replace the first
conversation with the same id (`findIndex` then index assignment), else push. -/
def upsertConversation (conversations : List Conversation) (c : Conversation) :
    List Conversation :=
  match conversations.findIdx? (fun x => x.id == c.id) with
  | some i => conversations.set i c
  | none => conversations ++ [c]

/-- StorageService.saveConversation: read the current list, upsert by id,
and write the serialized list back. -/
def saveConversation (raw : RawStore) (c : Conversation) : RawStore :=
  RawStore.jsonConvs ((upsertConversation (getConversations raw) c).map encodeConversation)

/-! Notification bus: `useToasts.ts`. -/

/-- Toast type, from `useToasts.ts`. -/
inductive ToastType where
  | error
  | success
  | info
  | warning
deriving DecidableEq

/-- Toast, from `useToasts.ts`. -/
structure Toast where
  id : String
  type : ToastType
  message : String
  duration : Option Nat := none
deriving DecidableEq

/-- showToast: builds the event delivered to every subscribed listener. The
module-level `toastId` counter is passed explicitly. -/
def showToast (message : String) (type : ToastType) (duration : Nat)
    (counter : Nat) : Toast :=
  { id := "toast-" ++ toString counter, type := type, message := message,
    duration := some duration }

/-- A pending auto-dismiss timer: `setTimeout` of the removal callback. -/
structure ScheduledRemoval where
  delayMs : Nat
  toastId : String
deriving DecidableEq

/-- One delivery of a toast to a `useToasts` subscriber
(`handleShowToast`): prepend the event and keep the most recent `maxToasts`
(`[toast, ...prev].slice(0, maxToasts)`); schedule an auto-dismiss timer iff
`toast.duration && toast.duration > 0`. -/
def handleShowToast (prev : List Toast) (maxToasts : Nat) (t : Toast) :
    List Toast × Option ScheduledRemoval :=
  ((t :: prev).take maxToasts,
    match t.duration with
    | some d => if 0 < d then some { delayMs := d, toastId := t.id } else none
    | none => none)

/-- The body of the auto-dismiss timer and of `removeToast`: drop every
active toast carrying the given id. -/
def removeToast (toasts : List Toast) (id : String) : List Toast :=
  toasts.filter (fun t => t.id != id)

/-! Typing scheduler: `useTypingEffect.ts`. The hook text is modelled as a
list of UTF-16 units, and the effect body as a step function on an explicit
state; `running` records whether the interval is still installed. -/

/-- Observable state of `useTypingEffect` plus the captured `currentIndex`
and the liveness of the interval. -/
structure TypingState where
  displayedText : List Char
  isTyping : Bool
  currentIndex : Nat
  running : Bool
deriving DecidableEq

/-- Effect setup of `useTypingEffect`: when disabled, present the full text
at once with `isTyping = false` and install no interval; when enabled, reset
to the empty text, `isTyping = true`, `currentIndex = 0`, interval running. -/
def typingInit (text : List Char) (enabled : Bool) : TypingState :=
  if enabled then
    { displayedText := [], isTyping := true, currentIndex := 0, running := true }
  else
    { displayedText := text, isTyping := false, currentIndex := 0, running := false }

/-- One interval tick of `useTypingEffect`: while `currentIndex ≤ text.length`,
display `text.slice(0, currentIndex)` and increment; otherwise stop typing and
clear the interval. A tick on a cleared interval does nothing. -/
def typingTick (text : List Char) (s : TypingState) : TypingState :=
  if s.running then
    if s.currentIndex ≤ text.length then
      { s with displayedText := text.take s.currentIndex,
               currentIndex := s.currentIndex + 1 }
    else
      { s with isTyping := false, running := false }
  else s

/-- The state after `n` interval ticks. -/
def typingTicks (text : List Char) (s : TypingState) : Nat → TypingState
  | 0 => s
  | n + 1 => typingTick text (typingTicks text s n)

/-- Effect cleanup of `useTypingEffect`: `clearInterval` plus
`setIsTyping(false)`. -/
def typingCancel (s : TypingState) : TypingState :=
  { s with running := false, isTyping := false }

/-- Closed form of the enabled reveal after `n` ticks: the tick that moves
`currentIndex` from `i` to `i + 1` displays the slice of length `i`, so the
display lags the tick count by one; the interval is cleared on the tick after
the full text is reached. -/
def typingClosedForm (text : List Char) (n : Nat) : TypingState :=
  if n ≤ text.length + 1 then
    { displayedText := text.take (n - 1), isTyping := true,
      currentIndex := n, running := true }
  else
    { displayedText := text.take text.length, isTyping := false,
      currentIndex := text.length + 1, running := false }

/-! Request gateway health check: `api.ts`. -/

/-- Health status, from `types/index.ts`. -/
inductive HealthStatus where
  | healthy
  | unhealthy
deriving DecidableEq

/-- Database connectivity, from `types/index.ts`. -/
inductive DatabaseStatus where
  | connected
  | disconnected
deriving DecidableEq

/-- HealthCheck, from `types/index.ts`. -/
structure HealthCheck where
  status : HealthStatus
  database : DatabaseStatus
  collections : Nat
  message : Option String := none
deriving DecidableEq

/-- Outcome of the underlying `GET /health` request: a 2xx body, or a
rejection with an `Error` instance carrying a message (timeout, network
failure, HTTP error), or a rejection with a non-`Error` value. -/
inductive HealthRequestOutcome where
  | ok (body : HealthCheck)
  | errValue (msg : String)
  | errOther
deriving DecidableEq

/-- ApiService.checkHealth: return the response body on success and a fixed
structured unhealthy result on any caught rejection; totality of this
function is the formal content of "resolves rather than rejects". -/
def checkHealth : HealthRequestOutcome → HealthCheck
  | .ok body => body
  | .errValue msg =>
      { status := .unhealthy, database := .disconnected, collections := 0,
        message := some ("Failed to connect to server: " ++ msg) }
  | .errOther =>
      { status := .unhealthy, database := .disconnected, collections := 0,
        message := some "Failed to connect to server" }

/-! Conversation session manager: `useChat.ts`. -/

/-- In-memory state of one `useChat` instance: the five `useState` cells. -/
structure SessionState where
  messages : List ExtendedMessage
  isLoading : Bool
  error : Option String
  currentConversationId : String
  hasUserMessage : Bool
deriving DecidableEq

/-- JS `a || b` on an optional string: both `undefined` and the empty string
are falsy and fall through to `b`. -/
def jsStringOr (a : Option String) (b : String) : String :=
  match a with
  | some s => if s = "" then b else s
  | none => b

/-- Whether the message list contains a user turn. -/
def hasUserMsg (messages : List ExtendedMessage) : Bool :=
  messages.any (fun m => m.role == Role.user)

/-- Title derivation in the persist effect of `useChat`:
`messages.find(m => m.role === 'user')?.content.slice(0, 50) || 'Nova Conversa'`. -/
def deriveTitle (messages : List ExtendedMessage) : String :=
  jsStringOr ((messages.find? (fun m => m.role == Role.user)).map
    (fun m => m.content.take 50)) "Nova Conversa"

/-- The destructuring `({ responseData, ...msg }) => msg` applied to each
message before saving. -/
def stripResponseData (m : ExtendedMessage) : ExtendedMessage :=
  { m with responseData := none }

/-- A conversation as built for saving: every message stripped of its
`responseData` field, exactly as the persist effect of `useChat` maps the
session messages before handing them to `StorageService.saveConversation`. -/
def stripConversation (c : Conversation) : Conversation :=
  { c with messages := c.messages.map stripResponseData }

/-- The persist effect of `useChat`: runs after every state change; iff
`messages.length > 0 && hasUserMessage` it builds the Conversation record
(title derived from the first user message, messages stripped of
`responseData`, both `createdAt` and `updatedAt` set to `new Date()` at the
time of the save) and returns it for `StorageService.saveConversation`;
otherwise no write occurs. -/
def persistEffect (st : SessionState) (now : Nat) : Option Conversation :=
  if 0 < st.messages.length ∧ st.hasUserMessage = true then
    some { id := st.currentConversationId,
           title := deriveTitle st.messages,
           messages := st.messages.map stripResponseData,
           createdAt := now, updatedAt := now }
  else none

/-- The synthetic greeting text seeded into a fresh conversation. -/
def greetingText : String :=
  "Olá! Sou o Assistente de Banco de Dados. Posso ajudá-lo a consultar informações do seu banco de dados usando linguagem natural. Como posso ajudar?"

/-- The synthetic assistant greeting message for a fresh conversation;
`gid` is the freshly generated message id, `t` the current time. -/
def greetingMessage (gid : String) (t : Nat) : ExtendedMessage :=
  { id := gid, role := .assistant, content := greetingText, timestamp := t }

/-- The mount/reselection effect of `useChat`: look the current conversation
id up in the store; if found, load its messages and set
`hasUserMessage = true`; if not found, seed exactly one synthetic assistant
greeting message and set `hasUserMessage = false`. -/
def initSession (raw : RawStore) (cid gid : String) (t : Nat) : SessionState :=
  match (getConversations raw).find? (fun c => c.id == cid) with
  | some conv =>
      { messages := conv.messages, isLoading := false, error := none,
        currentConversationId := cid, hasUserMessage := true }
  | none =>
      { messages := [greetingMessage gid t], isLoading := false, error := none,
        currentConversationId := cid, hasUserMessage := false }

/-- The data the catch block of `sendMessage` can read off a thrown value:
`err.response?.data?.detail` and `err.message`. -/
structure GatewayError where
  responseDetail : Option String
  message : Option String
deriving DecidableEq

/-- Outcome of the awaited `apiService.sendMessage` call. -/
inductive GatewayOutcome where
  | ok (r : ChatResponse)
  | error (e : GatewayError)
deriving DecidableEq

/-- Error classification in the catch block of `sendMessage`:
`err.response?.data?.detail || err.message || 'Falha ao enviar mensagem'`. -/
def classifyError (e : GatewayError) : String :=
  jsStringOr e.responseDetail (jsStringOr e.message "Falha ao enviar mensagem")

/-- The optimistic user message appended at the top of `sendMessage`. -/
def mkUserMessage (content : String) (attachments : Option (List Attachment))
    (uid : String) (t : Nat) : ExtendedMessage :=
  { id := uid, role := .user, content := content, timestamp := t,
    attachments := attachments }

/-- First half of `sendMessage`, up to the await of the gateway: append the
user message, set `hasUserMessage`, set `isLoading`, clear `error`. -/
def sendMessageStart (st : SessionState) (content : String)
    (attachments : Option (List Attachment)) (uid : String) (t : Nat) :
    SessionState :=
  { st with
    messages := st.messages ++ [mkUserMessage content attachments uid t],
    hasUserMessage := true,
    isLoading := true,
    error := none }

/-- Resolution of `sendMessage` after the gateway settles: on success append
the assistant message carrying the response text and metadata and publish a
success toast; on failure classify the error, set the session error, publish
an error toast, and append the failed assistant message with
`hasError: true` and `originalUserMessage: content`; the finally block sets
`isLoading = false` on both paths. Returns the new state and the toasts
published during the resolution. -/
def sendMessageResolve (st : SessionState) (content : String) (aid : String)
    (t : Nat) (counter : Nat) (outcome : GatewayOutcome) :
    SessionState × List Toast :=
  match outcome with
  | .ok r =>
      ({ st with
          messages := st.messages ++
            [{ id := aid, role := .assistant, content := r.response,
               timestamp := t, responseData := some r }],
          isLoading := false },
        [showToast "Resposta recebida!" .success 2000 counter])
  | .error e =>
      let errorMessage := classifyError e
      ({ st with
          error := some errorMessage,
          messages := st.messages ++
            [{ id := aid, role := .assistant,
               content := "❌ Erro: " ++ errorMessage, timestamp := t,
               hasError := some true, originalUserMessage := some content }],
          isLoading := false },
        [showToast errorMessage .error 4000 counter])

/-- A whole `sendMessage(content, attachments)` call, as the composition of
its optimistic first half and its resolution; `uid`/`aid` are the generated
message ids, `t1`/`t2` the clock readings, `counter` the toast counter, and
`outcome` the result of the awaited gateway request. Totality of this
function over every outcome is the formal content of "no exception escapes
the call". -/
def sendMessage (st : SessionState) (content : String)
    (attachments : Option (List Attachment)) (uid aid : String)
    (t1 t2 counter : Nat) (outcome : GatewayOutcome) :
    SessionState × List Toast :=
  sendMessageResolve (sendMessageStart st content attachments uid t1)
    content aid t2 counter outcome

/-- clearMessages: discard the in-memory messages, reset `hasUserMessage`,
mint a fresh conversation id (`newId`). -/
def clearMessages (st : SessionState) (newId : String) : SessionState :=
  { st with messages := [], hasUserMessage := false,
            currentConversationId := newId }

/-! A small transition system tying the session manager to the store, for
the persistence-gating invariant. Each step is one React state change
followed by one run of the persist effect. -/

/-- A session together with the durable store backing it. -/
structure World where
  raw : RawStore
  session : SessionState

/-- Run the persist effect on a new session state: write the produced record
through `StorageService.saveConversation`, or leave the store untouched. -/
def applyPersist (raw : RawStore) (st : SessionState) (now : Nat) : World :=
  match persistEffect st now with
  | some c => ⟨saveConversation raw c, st⟩
  | none => ⟨raw, st⟩

/-- Every persisted conversation contains a user turn. The spec assumes this
of the store ("an existing conversation, by construction, already contains a
user turn"); it is preserved by every write the session manager performs. -/
def goodStore (raw : RawStore) : Prop :=
  ∀ c ∈ getConversations raw, hasUserMsg c.messages = true

/-- The stored record keyed by the current conversation id, if any. -/
def currentRecord (w : World) : Option Conversation :=
  (getConversations w.raw).find?
    (fun c => c.id == w.session.currentConversationId)

/-- The two state changes a `sendMessage` call performs, each followed by
the persist effect. -/
inductive SendStep : World → World → Prop where
  | start (w : World) (content : String) (attachments : Option (List Attachment))
      (uid : String) (t now : Nat) :
      SendStep w (applyPersist w.raw
        (sendMessageStart w.session content attachments uid t) now)
  | resolve (w : World) (content : String) (aid : String)
      (t counter now : Nat) (outcome : GatewayOutcome) :
      SendStep w (applyPersist w.raw
        (sendMessageResolve w.session content aid t counter outcome).1 now)

/-- Worlds reachable by the session manager: opening a session over a store
satisfying `goodStore`, reselecting a conversation, the two halves of
`sendMessage`, and `clearMessages` with a freshly minted id (`generateId`
produces ids unused in the store, recorded as the freshness hypothesis). -/
inductive Reach : World → Prop where
  | boot (raw : RawStore) (cid gid : String) (t now : Nat)
      (hgood : goodStore raw) :
      Reach (applyPersist raw (initSession raw cid gid t) now)
  | reselect (w : World) (hw : Reach w) (cid gid : String) (t now : Nat) :
      Reach (applyPersist w.raw (initSession w.raw cid gid t) now)
  | send (w w' : World) (hw : Reach w) (hs : SendStep w w') : Reach w'
  | clear (w : World) (hw : Reach w) (newId : String) (now : Nat)
      (hfresh : (getConversations w.raw).find? (fun c => c.id == newId) = none) :
      Reach (applyPersist w.raw (clearMessages w.session newId) now)

/-- The invariant the reachable worlds satisfy: the store stays good, a
record for the current id exists exactly when the session is eligible for
persistence, an eligible session contains a user turn, and the stored title
is the one derived from the current messages. -/
def SessionStoreInv (w : World) : Prop :=
  goodStore w.raw
  ∧ ((currentRecord w).isSome = true ↔
      (0 < w.session.messages.length ∧ w.session.hasUserMessage = true))
  ∧ (w.session.hasUserMessage = true → hasUserMsg w.session.messages = true)
  ∧ (∀ c, currentRecord w = some c → c.title = deriveTitle w.session.messages)

/-- A concrete freshly booted world over an empty store, used to witness the
reachability hypotheses at a computable input. -/
def bootWorld : World :=
  applyPersist RawStore.absent (initSession RawStore.absent "c1" "g1" 0) 0

/-- A concrete session that has optimistically appended one user message,
used to witness the persistence hypotheses at a computable input. -/
def sampleSentState : SessionState :=
  sendMessageStart (initSession RawStore.absent "c1" "g1" 0) "hello" none "u1" 1

/-! Helper lemmas about serialization, the store upsert, and message lists. -/

theorem decodeMessage_encodeMessage (m : ExtendedMessage) :
    decodeMessage (encodeMessage m) = m := rfl

theorem decodeConversation_encodeConversation (c : Conversation) :
    decodeConversation (encodeConversation c) = c := by
  cases c with
  | mk id title messages createdAt updatedAt =>
    simp [decodeConversation, encodeConversation, List.map_map, Function.comp_def,
      decodeMessage_encodeMessage, decodeDate, encodeDate]

theorem getConversations_saveConversation (raw : RawStore) (c : Conversation) :
    getConversations (saveConversation raw c) =
      upsertConversation (getConversations raw) c := by
  simp [getConversations, saveConversation, List.map_map, Function.comp_def,
    decodeConversation_encodeConversation]

theorem upsertConversation_nil (c : Conversation) :
    upsertConversation [] c = [c] := rfl

theorem upsertConversation_cons (x : Conversation) (xs : List Conversation)
    (c : Conversation) :
    upsertConversation (x :: xs) c =
      if x.id == c.id then c :: xs else x :: upsertConversation xs c := by
  unfold upsertConversation
  rw [List.findIdx?_cons]
  by_cases h : (x.id == c.id) = true
  · simp [h]
  · rw [if_neg h, if_neg (by simpa using h)]
    rw [List.findIdx?_succ]
    cases hfind : xs.findIdx? (fun y => y.id == c.id) with
    | none => simp
    | some j => simp [List.set_cons_succ]

theorem find?_upsertConversation (cs : List Conversation) (c : Conversation) :
    (upsertConversation cs c).find? (fun x => x.id == c.id) = some c := by
  induction cs with
  | nil =>
    rw [upsertConversation_nil]
    simp [List.find?]
  | cons x xs ih =>
    rw [upsertConversation_cons]
    by_cases h : (x.id == c.id) = true
    · rw [if_pos h]
      simp [List.find?]
    · rw [if_neg h, List.find?_cons_of_neg (upsertConversation xs c), ih]
      exact h

theorem mem_upsertConversation {cs : List Conversation} {c x : Conversation}
    (h : x ∈ upsertConversation cs c) : x ∈ cs ∨ x = c := by
  induction cs with
  | nil =>
    rw [upsertConversation_nil] at h
    simp at h
    exact Or.inr h
  | cons y ys ih =>
    rw [upsertConversation_cons] at h
    by_cases hy : (y.id == c.id) = true
    · rw [if_pos hy] at h
      rcases List.mem_cons.mp h with h | h
      · exact Or.inr h
      · exact Or.inl (List.mem_cons_of_mem _ h)
    · rw [if_neg hy] at h
      rcases List.mem_cons.mp h with h | h
      · exact Or.inl (h ▸ List.mem_cons_self _ _)
      · rcases ih h with h | h
        · exact Or.inl (List.mem_cons_of_mem _ h)
        · exact Or.inr h

theorem find?_append_left {α : Type} (p : α → Bool) (l₁ l₂ : List α)
    (h : (l₁.find? p).isSome = true) : (l₁ ++ l₂).find? p = l₁.find? p := by
  rw [List.find?_append]
  cases hf : l₁.find? p with
  | none => rw [hf] at h; simp at h
  | some a => simp

theorem hasUserMsg_append_of_left {l : List ExtendedMessage}
    (m : ExtendedMessage) (h : hasUserMsg l = true) :
    hasUserMsg (l ++ [m]) = true := by
  simp [hasUserMsg, List.any_append] at *
  exact Or.inl h

theorem hasUserMsg_append_user (l : List ExtendedMessage) {m : ExtendedMessage}
    (h : m.role = Role.user) : hasUserMsg (l ++ [m]) = true := by
  simp [hasUserMsg, List.any_append, h]

theorem length_pos_of_hasUserMsg {l : List ExtendedMessage}
    (h : hasUserMsg l = true) : 0 < l.length := by
  cases l with
  | nil => simp [hasUserMsg] at h
  | cons x xs => simp

theorem find?_user_isSome {l : List ExtendedMessage}
    (h : hasUserMsg l = true) :
    (l.find? (fun m => m.role == Role.user)).isSome = true := by
  rw [List.find?_isSome]
  simpa [hasUserMsg, List.any_eq_true] using h

theorem deriveTitle_append {l : List ExtendedMessage} (m : ExtendedMessage)
    (h : hasUserMsg l = true) : deriveTitle (l ++ [m]) = deriveTitle l := by
  unfold deriveTitle
  rw [find?_append_left _ _ _ (find?_user_isSome h)]

theorem hasUserMsg_map_strip (l : List ExtendedMessage) :
    hasUserMsg (l.map stripResponseData) = hasUserMsg l := by
  simp [hasUserMsg, List.any_map, Function.comp_def, stripResponseData]

theorem persistEffect_of_eligible {st : SessionState} {now : Nat}
    (h : 0 < st.messages.length ∧ st.hasUserMessage = true) :
    persistEffect st now = some
      { id := st.currentConversationId, title := deriveTitle st.messages,
        messages := st.messages.map stripResponseData,
        createdAt := now, updatedAt := now } := by
  unfold persistEffect
  rw [if_pos h]

theorem persistEffect_of_ineligible {st : SessionState} {now : Nat}
    (h : ¬ (0 < st.messages.length ∧ st.hasUserMessage = true)) :
    persistEffect st now = none := by
  unfold persistEffect
  rw [if_neg h]

theorem applyPersist_session (raw : RawStore) (st : SessionState) (now : Nat) :
    (applyPersist raw st now).session = st := by
  unfold applyPersist
  cases persistEffect st now <;> rfl

theorem sessionStoreInv_applyPersist (raw : RawStore) (st : SessionState)
    (now : Nat) (hgood : goodStore raw)
    (huser : st.hasUserMessage = true → hasUserMsg st.messages = true)
    (habsent : ¬ (0 < st.messages.length ∧ st.hasUserMessage = true) →
      (getConversations raw).find?
        (fun c => c.id == st.currentConversationId) = none) :
    SessionStoreInv (applyPersist raw st now) := by
  by_cases hcond : 0 < st.messages.length ∧ st.hasUserMessage = true
  · have hpe : persistEffect st now = some
        { id := st.currentConversationId, title := deriveTitle st.messages,
          messages := st.messages.map stripResponseData,
          createdAt := now, updatedAt := now } := persistEffect_of_eligible hcond
    unfold applyPersist
    rw [hpe]
    have hrec : (getConversations (saveConversation raw
        { id := st.currentConversationId, title := deriveTitle st.messages,
          messages := st.messages.map stripResponseData,
          createdAt := now, updatedAt := now })).find?
          (fun c => c.id == st.currentConversationId) = some
        { id := st.currentConversationId, title := deriveTitle st.messages,
          messages := st.messages.map stripResponseData,
          createdAt := now, updatedAt := now } := by
      rw [getConversations_saveConversation]
      exact find?_upsertConversation (getConversations raw)
        { id := st.currentConversationId, title := deriveTitle st.messages,
          messages := st.messages.map stripResponseData,
          createdAt := now, updatedAt := now }
    refine ⟨?_, ?_, ?_, ?_⟩
    · intro c hc
      rw [getConversations_saveConversation] at hc
      rcases mem_upsertConversation hc with hold | rfl
      · exact hgood c hold
      · show hasUserMsg (st.messages.map stripResponseData) = true
        rw [hasUserMsg_map_strip]
        exact huser hcond.2
    · unfold currentRecord
      rw [hrec]
      exact iff_of_true rfl hcond
    · intro _
      exact huser hcond.2
    · intro c hc
      unfold currentRecord at hc
      rw [hrec] at hc
      cases hc
      rfl
  · have hpe : persistEffect st now = none := persistEffect_of_ineligible hcond
    unfold applyPersist
    rw [hpe]
    refine ⟨hgood, ?_, huser, ?_⟩
    · unfold currentRecord
      rw [habsent hcond]
      exact iff_of_false (by simp) hcond
    · intro c hc
      unfold currentRecord at hc
      rw [habsent hcond] at hc
      cases hc

theorem sessionStoreInv_init (raw : RawStore) (cid gid : String) (t now : Nat)
    (hgood : goodStore raw) :
    SessionStoreInv (applyPersist raw (initSession raw cid gid t) now) := by
  cases hfind : (getConversations raw).find? (fun c => c.id == cid) with
  | some conv =>
    have hmem : conv ∈ getConversations raw := List.mem_of_find?_eq_some hfind
    have huserconv : hasUserMsg conv.messages = true := hgood conv hmem
    simp only [initSession, hfind]
    apply sessionStoreInv_applyPersist _ _ _ hgood
    · intro _
      exact huserconv
    · intro hnot
      exact absurd ⟨length_pos_of_hasUserMsg huserconv, rfl⟩ hnot
  | none =>
    simp only [initSession, hfind]
    apply sessionStoreInv_applyPersist _ _ _ hgood
    · intro h
      simp at h
    · intro _
      exact hfind

theorem reach_sessionStoreInv : ∀ w, Reach w → SessionStoreInv w := by
  intro w hw
  induction hw with
  | boot raw cid gid t now hgood =>
    exact sessionStoreInv_init raw cid gid t now hgood
  | reselect v _hv cid gid t now ih =>
    exact sessionStoreInv_init v.raw cid gid t now ih.1
  | send v v' _hv hs ih =>
    cases hs with
    | start content attachments uid t now =>
      apply sessionStoreInv_applyPersist _ _ _ ih.1
      · intro _
        exact hasUserMsg_append_user v.session.messages rfl
      · intro hnot
        exact absurd ⟨by simp [sendMessageStart], rfl⟩ hnot
    | resolve content aid t counter now outcome =>
      cases outcome with
      | ok r =>
        apply sessionStoreInv_applyPersist _ _ _ ih.1
        · intro h
          exact hasUserMsg_append_of_left _ (ih.2.2.1 h)
        · intro hnot
          have hum : v.session.hasUserMessage = false := by
            by_cases hb : v.session.hasUserMessage = true
            · exact absurd ⟨by simp [sendMessageResolve], hb⟩ hnot
            · simpa using hb
          have : (currentRecord v).isSome = false := by
            by_cases hb : (currentRecord v).isSome = true
            · exact absurd (ih.2.1.mp hb).2 (by simp [hum])
            · simpa using hb
          have hnone : currentRecord v = none :=
            Option.not_isSome_iff_eq_none.mp (by simp [this])
          exact hnone
      | error e =>
        apply sessionStoreInv_applyPersist _ _ _ ih.1
        · intro h
          exact hasUserMsg_append_of_left _ (ih.2.2.1 h)
        · intro hnot
          have hum : v.session.hasUserMessage = false := by
            by_cases hb : v.session.hasUserMessage = true
            · exact absurd ⟨by simp [sendMessageResolve], hb⟩ hnot
            · simpa using hb
          have : (currentRecord v).isSome = false := by
            by_cases hb : (currentRecord v).isSome = true
            · exact absurd (ih.2.1.mp hb).2 (by simp [hum])
            · simpa using hb
          have hnone : currentRecord v = none :=
            Option.not_isSome_iff_eq_none.mp (by simp [this])
          exact hnone
  | clear v _hv newId now hfresh ih =>
    apply sessionStoreInv_applyPersist _ _ _ ih.1
    · intro h
      simp [clearMessages] at h
    · intro _
      exact hfresh

theorem typingTicks_eq_closedForm (text : List Char) (n : Nat) :
    typingTicks text (typingInit text true) n = typingClosedForm text n := by
  induction n with
  | zero =>
    simp [typingTicks, typingInit, typingClosedForm]
  | succ n ih =>
    have hstep : typingTicks text (typingInit text true) (n + 1)
        = typingTick text (typingClosedForm text n) := by
      rw [typingTicks, ih]
    rw [hstep]
    rcases Nat.lt_trichotomy n (text.length + 1) with h | h | h
    · have h1 : n ≤ text.length + 1 := by omega
      have h2 : n ≤ text.length := by omega
      have h3 : n + 1 ≤ text.length + 1 := by omega
      simp [typingClosedForm, typingTick, h1, h2, h3]
    · subst h
      have hB : ¬ (text.length + 1 ≤ text.length) := by omega
      have hC : ¬ (text.length + 1 + 1 ≤ text.length + 1) := by omega
      simp [typingClosedForm, typingTick, hB, hC]
    · have h1 : ¬ (n ≤ text.length + 1) := by omega
      have h2 : ¬ (n + 1 ≤ text.length + 1) := by omega
      simp [typingClosedForm, typingTick, h1, h2]

/-- C8 (amended): while enabled, the tick that moves `currentIndex` from `i`
to `i + 1` displays the slice of length `i`, so after `n` ticks the visible
text is the slice of length `min (n - 1) length` — one unit behind the tick
count — growing by one unit per tick after the first until it equals the
full text, whereupon the reveal stops on the following tick; a disabled
reveal presents the full text immediately with `isTyping = false`; after
cancellation no tick changes the state, so the visible text never changes
again. -/
theorem typing_reveal_behavior (text : List Char) (n : Nat) (s : TypingState) :
    (typingTicks text (typingInit text true) n).displayedText
      = text.take (min (n - 1) text.length)
  ∧ (typingInit text false).displayedText = text
  ∧ (typingInit text false).isTyping = false
  ∧ typingTicks text (typingCancel s) n = typingCancel s := by
  refine ⟨?_, rfl, rfl, ?_⟩
  · rw [typingTicks_eq_closedForm]
    unfold typingClosedForm
    by_cases h : n ≤ text.length + 1
    · rw [if_pos h]
      have hm : min (n - 1) text.length = n - 1 := by omega
      rw [hm]
    · rw [if_neg h]
      have hm : min (n - 1) text.length = text.length := by omega
      rw [hm]
  · induction n with
    | zero => rfl
    | succ n ih =>
      rw [typingTicks, ih]
      simp [typingTick, typingCancel]

/-- C8 (counterexample): the claim asserts that after `n` ticks the visible
text is the slice of length `n`; on the text "ab" with the reveal enabled,
one tick leaves the visible text empty, not the slice of length 1, because
the interval callback displays `text.slice(0, currentIndex)` before
incrementing `currentIndex`. -/
theorem typing_reveal_counterexample :
    ((typingTicks ['a', 'b'] (typingInit ['a', 'b'] true) 1).displayedText
      == (['a', 'b'] : List Char).take 1) = false := by decide

/-- C9 (amended): a delivery with `duration = 0` (or an absent duration)
schedules no auto-dismiss timer, so the event can leave the active list only
through `removeToast` or through displacement by newer events beyond the
`maxToasts` retention bound; a delivery with `duration = d > 0` schedules a
removal of exactly the delivered id to run `d` milliseconds later, and that
removal drops precisely the active toasts carrying that id. -/
theorem toast_dismiss_scheduling (prev : List Toast) (maxToasts : Nat)
    (t : Toast) :
    (t.duration = some 0 → (handleShowToast prev maxToasts t).2 = none)
  ∧ (t.duration = none → (handleShowToast prev maxToasts t).2 = none)
  ∧ (∀ d, t.duration = some d → 0 < d →
      (handleShowToast prev maxToasts t).2
        = some { delayMs := d, toastId := t.id })
  ∧ (handleShowToast prev maxToasts t).1 = (t :: prev).take maxToasts
  ∧ (∀ active x, x ∈ removeToast active t.id ↔
      x ∈ active ∧ (x.id == t.id) = false) := by
  refine ⟨?_, ?_, ?_, rfl, ?_⟩
  · intro h
    simp [handleShowToast, h]
  · intro h
    simp [handleShowToast, h]
  · intro d hd hpos
    simp [handleShowToast, hd, hpos]
  · intro active x
    simp [removeToast, List.mem_filter, bne]

theorem toast_dismiss_scheduling_witness :
    (handleShowToast [] 5
      { id := "toast-0", type := ToastType.info, message := "m",
        duration := some 0 }).2 = none
  ∧ (handleShowToast [] 5
      { id := "toast-1", type := ToastType.success, message := "m",
        duration := some 2000 }).2
      = some { delayMs := 2000, toastId := "toast-1" } := by
  constructor
  · exact (toast_dismiss_scheduling [] 5
      { id := "toast-0", type := ToastType.info, message := "m",
        duration := some 0 }).1 rfl
  · exact (toast_dismiss_scheduling [] 5
      { id := "toast-1", type := ToastType.success, message := "m",
        duration := some 2000 }).2.2.1 2000 rfl (by decide)

/-- C9 (counterexample): the claim asserts that a `duration = 0` event stays
in the active list until dismissed manually; with `maxToasts = 1`, a first
`duration = 0` toast is displaced from the active list by the delivery of a
second toast, although no auto-dismiss was ever scheduled for either and no
manual dismissal occurred. -/
theorem toast_eviction_counterexample :
    (handleShowToast [] 1
      { id := "toast-0", type := ToastType.info, message := "a",
        duration := some 0 }).2 = none
  ∧ (handleShowToast (handleShowToast [] 1
      { id := "toast-0", type := ToastType.info, message := "a",
        duration := some 0 }).1 1
      { id := "toast-1", type := ToastType.info, message := "b",
        duration := some 0 }).2 = none
  ∧ ((handleShowToast (handleShowToast [] 1
      { id := "toast-0", type := ToastType.info, message := "a",
        duration := some 0 }).1 1
      { id := "toast-1", type := ToastType.info, message := "b",
        duration := some 0 }).1.contains
      { id := "toast-0", type := ToastType.info, message := "a",
        duration := some 0 }) = false := by decide

/-- C7: checkHealth is a total function of the request outcome — it resolves
on every outcome, including timeout and network failure — returning the
response body on success and a structured result with status unhealthy,
database disconnected, zero collections and a message on any failure. -/
theorem checkHealth_resolves (o : HealthRequestOutcome) :
    (∀ body, o = .ok body → checkHealth o = body)
  ∧ (∀ msg, o = .errValue msg → checkHealth o =
      { status := .unhealthy, database := .disconnected, collections := 0,
        message := some ("Failed to connect to server: " ++ msg) })
  ∧ (o = .errOther → checkHealth o =
      { status := .unhealthy, database := .disconnected, collections := 0,
        message := some "Failed to connect to server" })
  ∧ ((checkHealth o).status = .unhealthy ∨ ∃ body, o = .ok body) := by
  cases o <;> simp [checkHealth]

theorem checkHealth_resolves_witness :
    checkHealth (HealthRequestOutcome.errValue "timeout of 5000ms exceeded")
      = { status := HealthStatus.unhealthy,
          database := DatabaseStatus.disconnected, collections := 0,
          message := some ("Failed to connect to server: "
            ++ "timeout of 5000ms exceeded") } :=
  (checkHealth_resolves
    (HealthRequestOutcome.errValue "timeout of 5000ms exceeded")).2.1
    "timeout of 5000ms exceeded" rfl

/-- C6: getConversations never throws — it is a total function of the raw
store contents — and returns the empty sequence on an absent key, on a value
on which the JSON parse throws, and on a parsed value over which the
conversation revival throws; only a well-formed stored array yields
conversations, with dates revived. -/
theorem getConversations_fail_open :
    getConversations RawStore.absent = []
  ∧ (∀ s, getConversations (RawStore.notJson s) = [])
  ∧ getConversations RawStore.jsonNonArray = []
  ∧ (∀ cs, getConversations (RawStore.jsonConvs cs)
      = cs.map decodeConversation) :=
  ⟨rfl, fun _ => rfl, rfl, fun _ => rfl⟩

/-- C5: saving a conversation through the persist path (its messages
stripped of `responseData` exactly as the persist effect maps them) and
loading the conversation list yields a record with the same id whose
messages agree with the original in content, role and order, whose
timestamps survive the date serialization exactly, and none of whose
messages carries a `responseData` field. -/
theorem conversation_save_load_roundtrip (raw : RawStore) (c : Conversation) :
    (getConversations (saveConversation raw (stripConversation c))).find?
        (fun x => x.id == c.id) = some (stripConversation c)
  ∧ (stripConversation c).id = c.id
  ∧ (stripConversation c).messages.map (fun m => m.content)
      = c.messages.map (fun m => m.content)
  ∧ (stripConversation c).messages.map (fun m => m.role)
      = c.messages.map (fun m => m.role)
  ∧ (stripConversation c).messages.map (fun m => m.timestamp)
      = c.messages.map (fun m => m.timestamp)
  ∧ (stripConversation c).messages.all (fun m => m.responseData.isNone) = true
  ∧ (∀ ts : Nat, decodeDate (encodeDate ts) = ts) := by
  refine ⟨?_, rfl, ?_, ?_, ?_, ?_, fun _ => rfl⟩
  · rw [getConversations_saveConversation]
    exact find?_upsertConversation (getConversations raw) (stripConversation c)
  · simp [stripConversation, List.map_map, Function.comp_def, stripResponseData]
  · simp [stripConversation, List.map_map, Function.comp_def, stripResponseData]
  · simp [stripConversation, List.map_map, Function.comp_def, stripResponseData]
  · simp [stripConversation, List.all_eq_true, stripResponseData]

/-- C1: a `sendMessage(content)` call whose gateway request succeeds grows
the message sequence by exactly the two entries [user message with the given
content, assistant message carrying the response text and metadata] appended
in order, publishes one success toast, and has `isLoading = true` from the
optimistic first half until the resolution sets it back to false. -/
theorem sendMessage_success_behavior (st : SessionState) (content : String)
    (attachments : Option (List Attachment)) (uid aid : String)
    (t1 t2 counter : Nat) (r : ChatResponse) :
    (sendMessage st content attachments uid aid t1 t2 counter (.ok r)).1.messages
      = st.messages ++
        [mkUserMessage content attachments uid t1,
         { id := aid, role := Role.assistant, content := r.response,
           timestamp := t2, responseData := some r }]
  ∧ (sendMessage st content attachments uid aid t1 t2 counter
      (.ok r)).1.messages.length = st.messages.length + 2
  ∧ (mkUserMessage content attachments uid t1).role = Role.user
  ∧ (mkUserMessage content attachments uid t1).content = content
  ∧ (sendMessage st content attachments uid aid t1 t2 counter (.ok r)).2
      = [showToast "Resposta recebida!" ToastType.success 2000 counter]
  ∧ (showToast "Resposta recebida!" ToastType.success 2000 counter).type
      = ToastType.success
  ∧ (sendMessageStart st content attachments uid t1).isLoading = true
  ∧ (sendMessage st content attachments uid aid t1 t2 counter
      (.ok r)).1.isLoading = false := by
  refine ⟨?_, ?_, rfl, rfl, rfl, rfl, rfl, rfl⟩
  · simp [sendMessage, sendMessageStart, sendMessageResolve]
  · simp [sendMessage, sendMessageStart, sendMessageResolve]

/-- C2: a `sendMessage(content)` call whose gateway request fails still
returns (no exception escapes: `sendMessage` is total over every outcome);
the sequence grows by exactly [user message, assistant message with
`hasError = true` and `originalUserMessage = content`]; the session error is
set non-null to the classified message, which prefers a non-empty
server-supplied detail field, then a non-empty exception message, then the
fixed fallback string; one toast of type error is published; and
`isLoading` returns to false. -/
theorem sendMessage_failure_behavior (st : SessionState) (content : String)
    (attachments : Option (List Attachment)) (uid aid : String)
    (t1 t2 counter : Nat) (e : GatewayError) :
    (sendMessage st content attachments uid aid t1 t2 counter
        (.error e)).1.messages
      = st.messages ++
        [mkUserMessage content attachments uid t1,
         { id := aid, role := Role.assistant,
           content := "❌ Erro: " ++ classifyError e, timestamp := t2,
           hasError := some true, originalUserMessage := some content }]
  ∧ (sendMessage st content attachments uid aid t1 t2 counter
      (.error e)).1.messages.length = st.messages.length + 2
  ∧ (sendMessage st content attachments uid aid t1 t2 counter
      (.error e)).1.error = some (classifyError e)
  ∧ (sendMessage st content attachments uid aid t1 t2 counter
      (.error e)).1.error.isSome = true
  ∧ (sendMessage st content attachments uid aid t1 t2 counter (.error e)).2
      = [showToast (classifyError e) ToastType.error 4000 counter]
  ∧ (showToast (classifyError e) ToastType.error 4000 counter).type
      = ToastType.error
  ∧ (sendMessage st content attachments uid aid t1 t2 counter
      (.error e)).1.isLoading = false
  ∧ (∀ d, e.responseDetail = some d → ¬ d = "" → classifyError e = d)
  ∧ ((e.responseDetail = none ∨ e.responseDetail = some "") →
      ∀ m, e.message = some m → ¬ m = "" → classifyError e = m)
  ∧ ((e.responseDetail = none ∨ e.responseDetail = some "") →
      (e.message = none ∨ e.message = some "") →
      classifyError e = "Falha ao enviar mensagem") := by
  refine ⟨?_, ?_, rfl, rfl, rfl, rfl, rfl, ?_, ?_, ?_⟩
  · simp [sendMessage, sendMessageStart, sendMessageResolve]
  · simp [sendMessage, sendMessageStart, sendMessageResolve]
  · intro d hd hne
    simp [classifyError, jsStringOr, hd, hne]
  · rintro (h | h) m hm hne <;> simp [classifyError, jsStringOr, h, hm, hne]
  · rintro (h | h) (h2 | h2) <;> simp [classifyError, jsStringOr, h, h2]

theorem sendMessage_failure_witness :
    (sendMessage (initSession RawStore.absent "c1" "g1" 0) "hi" none "u1"
        "a1" 1 2 0 (GatewayOutcome.error
          { responseDetail := some "boom", message := some "Request failed" })).1.error
      = some "boom"
  ∧ classifyError
      { responseDetail := some "boom", message := some "Request failed" }
      = "boom" := by
  have h := sendMessage_failure_behavior (initSession RawStore.absent "c1" "g1" 0)
    "hi" none "u1" "a1" 1 2 0
    { responseDetail := some "boom", message := some "Request failed" }
  have hc : classifyError
      { responseDetail := some "boom", message := some "Request failed" }
      = "boom" := h.2.2.2.2.2.2.2.1 "boom" rfl (by decide)
  exact ⟨by rw [h.2.2.1, hc], hc⟩

/-- C3: opening a session on a conversation id with no persisted record
seeds exactly one synthetic assistant greeting message with
`hasUserMessage = false`, and the persist effect writes nothing in that
state (and in any state with `hasUserMessage = false`, so no store write
occurs until a user message is sent); opening a session on an id with a
persisted record loads its messages and sets `hasUserMessage = true`. -/
theorem initSession_greeting_and_load (raw : RawStore) (cid gid : String)
    (t now : Nat) :
    ((getConversations raw).find? (fun c => c.id == cid) = none →
      (initSession raw cid gid t).messages = [greetingMessage gid t]
      ∧ (initSession raw cid gid t).messages.length = 1
      ∧ (greetingMessage gid t).role = Role.assistant
      ∧ (initSession raw cid gid t).hasUserMessage = false
      ∧ persistEffect (initSession raw cid gid t) now = none)
  ∧ (∀ conv, (getConversations raw).find? (fun c => c.id == cid) = some conv →
      (initSession raw cid gid t).messages = conv.messages
      ∧ (initSession raw cid gid t).hasUserMessage = true)
  ∧ (∀ st : SessionState, st.hasUserMessage = false →
      persistEffect st now = none) := by
  refine ⟨?_, ?_, ?_⟩
  · intro h
    refine ⟨?_, ?_, rfl, ?_, persistEffect_of_ineligible ?_⟩ <;>
      simp [initSession, h]
  · intro conv h
    constructor <;> simp [initSession, h]
  · intro st h
    exact persistEffect_of_ineligible (by simp [h])

theorem initSession_greeting_witness :
    (initSession RawStore.absent "c1" "g1" 0).messages
      = [greetingMessage "g1" 0]
  ∧ (initSession RawStore.absent "c1" "g1" 0).hasUserMessage = false
  ∧ persistEffect (initSession RawStore.absent "c1" "g1" 0) 7 = none := by
  have h := (initSession_greeting_and_load RawStore.absent "c1" "g1" 0 7).1 rfl
  exact ⟨h.1, h.2.2.2.1, h.2.2.2.2⟩

/-- C10: every record the persist effect produces carries both `createdAt`
and `updatedAt` equal to the time of that save, and writing it through the
store replaces whatever record was held under the current conversation id,
so the stored `createdAt` is overwritten on each save and the original
creation time is not preserved across saves. -/
theorem persist_timestamps_overwritten (st : SessionState) (now : Nat) :
    (∀ c, persistEffect st now = some c → c.createdAt = now ∧ c.updatedAt = now)
  ∧ (∀ raw c, persistEffect st now = some c →
      (getConversations (saveConversation raw c)).find?
        (fun x => x.id == st.currentConversationId) = some c) := by
  constructor
  · intro c hc
    by_cases h : 0 < st.messages.length ∧ st.hasUserMessage = true
    · rw [persistEffect_of_eligible h] at hc
      cases hc
      exact ⟨rfl, rfl⟩
    · rw [persistEffect_of_ineligible h] at hc
      cases hc
  · intro raw c hc
    have hid : c.id = st.currentConversationId := by
      by_cases h : 0 < st.messages.length ∧ st.hasUserMessage = true
      · rw [persistEffect_of_eligible h] at hc
        cases hc
        rfl
      · rw [persistEffect_of_ineligible h] at hc
        cases hc
    rw [getConversations_saveConversation]
    have hfind := find?_upsertConversation (getConversations raw) c
    rw [hid] at hfind
    exact hfind

theorem persist_timestamps_witness :
    (persistEffect sampleSentState 5).map (fun c => c.createdAt) = some 5
  ∧ (persistEffect sampleSentState 5).map (fun c => c.updatedAt) = some 5 := by
  have h := (persist_timestamps_overwritten sampleSentState 5).1
  cases hc : persistEffect sampleSentState 5 with
  | none => exact absurd hc (by decide)
  | some c =>
    have := h c hc
    simp [this.1, this.2]

/-- C4 (amended): in every reachable world the store holds a record keyed by
the current conversation id exactly when the session has messages and
`hasUserMessage` is true; that record carries the derived title — the first
50 characters of the first user message when that slice is non-empty, else
the fallback literal (which is also used when no user message exists) — and
the title does not change across subsequent saves performed by the send
steps of the same session. -/
theorem session_store_gate_and_title (w : World) (hw : Reach w) :
    ((currentRecord w).isSome = true ↔
      (0 < w.session.messages.length ∧ w.session.hasUserMessage = true))
  ∧ (∀ c, currentRecord w = some c → c.title = deriveTitle w.session.messages)
  ∧ (∀ w' c c', SendStep w w' → currentRecord w = some c →
      currentRecord w' = some c' → c'.title = c.title) := by
  have inv := reach_sessionStoreInv w hw
  refine ⟨inv.2.1, inv.2.2.2, ?_⟩
  intro w' c c' hs hc hc'
  have htitle : c.title = deriveTitle w.session.messages := inv.2.2.2 c hc
  have hsome : (currentRecord w).isSome = true := by rw [hc]; rfl
  have hcond := inv.2.1.mp hsome
  have huser : hasUserMsg w.session.messages = true := inv.2.2.1 hcond.2
  have inv' := reach_sessionStoreInv w' (Reach.send w w' hw hs)
  have htitle' : c'.title = deriveTitle w'.session.messages := inv'.2.2.2 c' hc'
  have hmsgs : deriveTitle w'.session.messages
      = deriveTitle w.session.messages := by
    cases hs with
    | start content attachments uid t now =>
      rw [applyPersist_session]
      exact deriveTitle_append _ huser
    | resolve content aid t counter now outcome =>
      rw [applyPersist_session]
      cases outcome with
      | ok r => exact deriveTitle_append _ huser
      | error e => exact deriveTitle_append _ huser
  rw [htitle', hmsgs, htitle]

theorem session_store_gate_witness :
    ((currentRecord bootWorld).isSome = true ↔
      (0 < bootWorld.session.messages.length
        ∧ bootWorld.session.hasUserMessage = true)) :=
  (session_store_gate_and_title bootWorld
    (Reach.boot RawStore.absent "c1" "g1" 0 0
      (by intro c hc; simp [getConversations] at hc))).1

set_option maxRecDepth 10000 in
/-- C4 (counterexample): the claim asserts the stored title equals the first
50 characters of the first user message whenever a user message exists; in
the reachable state produced by sending the empty content from a fresh
session, the first user message exists and its 50-character slice is the
empty string, yet the persisted title is the fallback literal, because the
title derivation uses JS disjunction, for which the empty slice is falsy. -/
theorem persist_title_fallback_counterexample :
    ((persistEffect (sendMessageStart (initSession RawStore.absent "c1" "g1" 0)
        "" none "u1" 1) 2).map (fun c => c.title) = some "Nova Conversa")
  ∧ (((sendMessageStart (initSession RawStore.absent "c1" "g1" 0)
        "" none "u1" 1).messages.find? (fun m => m.role == Role.user)).map
      (fun m => m.content.take 50) = some "")
  ∧ (("Nova Conversa" == "") = false) := by decide

end AgentDb
